import Mathlib

/-!
Verification of the USDTVault Streamlit application.

Shallow embedding of the parts of the code base the claims are about:

* `utils/blockchain.py` — address validation, wallet balance fetching and
  transaction history fetching.  Network calls (JSON-RPC balance queries,
  block-explorer HTTP queries) are modelled as explicit `Option`-valued
  oracle arguments: `none` stands for any swallowed exception / timeout /
  unreachable-node failure of that call, `some v` for a successful response.
* `utils/database.py` — the user record, PIN verification with attempt
  throttling, and the public profile lookup.  The MongoDB collection is
  modelled as a list of records and each update as explicit state passing.
* `pages/2_Savings_Goals.py` and `pages/1_Dashboard.py` — the goal
  progress computation and the deposit / withdraw / delete button handlers.

Python `Decimal` values are modelled as `ℚ`; `Decimal` division by zero
raises an exception, which the embedding models as `Option.none`.
-/

namespace USDTVault

/-! ### Address validator (`utils/blockchain.py`, `validate_address`) -/

/-- Character class of the regex `[a-fA-F0-9]` used in `validate_address`. -/
def isHexChar (c : Char) : Bool :=
  (('0' ≤ c && c ≤ '9') || ('a' ≤ c && c ≤ 'f') || ('A' ≤ c && c ≤ 'F'))

/-- Boolean test for the regex `^0x[a-fA-F0-9]{40}$` on a character list:
a 42-character string starting with `0x` whose remaining 40 characters are
hexadecimal digits. -/
def hexAddressChars (l : List Char) : Bool :=
  l.length == 42 && decide (l.take 2 = ['0', 'x']) && (l.drop 2).all isHexChar

/-- The test `re.match(r'^0x[a-fA-F0-9]{40}$', address)` from
`validate_address` in `utils/blockchain.py`. -/
def matchesAddressPattern (s : String) : Bool :=
  hexAddressChars s.toList

/-- Modelled from the chain library (`Web3.to_checksum_address`, external to
this repository): the canonical checksum normalization succeeds exactly on
strings of the form `0x` followed by 40 hexadecimal digits of any letter
case; it recomputes the checksum casing rather than validating an existing
mixed-case spelling, so it never fails on such a string. -/
def toChecksumAddressSucceeds (s : String) : Bool :=
  hexAddressChars s.toList

/-- `validate_address` from `utils/blockchain.py`: the regex test followed by
an attempted checksum normalization (`True` unless the library raises).
The guard `if not address or not isinstance(address, str)` is subsumed by
the regex test, which rejects the empty string. -/
def validate_address (address : String) : Bool :=
  matchesAddressPattern address && toChecksumAddressSucceeds address

/-- The spec's wording of the shape test, as a proposition: the string is
`0x` followed by exactly 40 hexadecimal characters. -/
def specHexAddress (s : String) : Prop :=
  ∃ rest : List Char,
    s.toList = '0' :: 'x' :: rest ∧ rest.length = 40 ∧ ∀ c ∈ rest, isHexChar c = true

theorem hexAddressChars_iff (l : List Char) :
    hexAddressChars l = true ↔
      ∃ rest : List Char,
        l = '0' :: 'x' :: rest ∧ rest.length = 40 ∧ ∀ c ∈ rest, isHexChar c = true := by
  unfold hexAddressChars
  simp only [Bool.and_eq_true, beq_iff_eq, decide_eq_true_eq, List.all_eq_true]
  constructor
  · rintro ⟨⟨hlen, htake⟩, hall⟩
    refine ⟨l.drop 2, ?_, ?_, ?_⟩
    · conv_lhs => rw [← List.take_append_drop 2 l]
      rw [htake]
      rfl
    · rw [List.length_drop, hlen]
    · exact hall
  · rintro ⟨rest, rfl, hlen, hall⟩
    refine ⟨⟨?_, ?_⟩, ?_⟩
    · simp [hlen]
    · rfl
    · simpa using hall

/-! ### Goal progress (`pages/2_Savings_Goals.py` lines 126–129,
`pages/1_Dashboard.py` lines 377–380) -/

/-- A savings-goal document as read back from MongoDB.  The `current` and
`target` fields hold decimal strings; `none` models a document in which the
field is absent, so that `goal.get('current', '0')` / `goal.get('target', '1')`
take their defaults. -/
structure GoalDoc where
  current : Option ℚ
  target : Option ℚ
deriving DecidableEq, Repr

/-- Progress computation from the goals pages:
`current = Decimal(goal.get('current', '0'))`,
`target = Decimal(goal.get('target', '1'))`,
`progress = min(float(current / target * 100), 100)`.
A present target equal to zero makes `Decimal` division raise
`DivisionByZero`, modelled as `none`. -/
def goalProgress (g : GoalDoc) : Option ℚ :=
  let current := g.current.getD 0
  let target := g.target.getD 1
  if target = 0 then none
  else some (min (current / target * 100) 100)

/-- The claim's version of the progress formula, following the spec's words:
`min(current / target * 100, 100)` with `target` defaulting to 1 when it is
zero or absent, so it is always defined. -/
def goalProgressClaimed (g : GoalDoc) : ℚ :=
  let current := g.current.getD 0
  let target0 := g.target.getD 1
  let target := if target0 = 0 then 1 else target0
  min (current / target * 100) 100

/-! ### Chain balance reader (`utils/blockchain.py`, `get_wallet_balance`) -/

/-- Rounding to an integer with ties to even, the default `ROUND_HALF_EVEN`
mode of Python's `Decimal.quantize`. -/
def bankersRound (x : ℚ) : ℤ :=
  let f := ⌊x⌋
  let r := x - f
  if r < 1 / 2 then f
  else if 1 / 2 < r then f + 1
  else if f % 2 = 0 then f else f + 1

/-- The `total_usd.quantize(Decimal("0.01"))` step: round to two decimal
places with ties to even. -/
def quantize2 (x : ℚ) : ℚ :=
  (bankersRound (x * 100) : ℚ) / 100

/-- The record returned by `get_wallet_balance` (its decimal string values
modelled as the rationals they denote; `str` is injective on `Decimal`). -/
structure WalletBalance where
  bnb : ℚ
  usdt : ℚ
  total_usd : ℚ
deriving DecidableEq, Repr

/-- `get_bnb_balance` from `utils/blockchain.py`.  `rpc` is the outcome of
the RPC leg: `none` models an unreachable node, a missing web3 connection or
any exception in `get_balance` (all swallowed and returned as `None`),
`some v` a successfully fetched and unit-converted balance. -/
def get_bnb_balance (address : String) (rpc : Option ℚ) : Option ℚ :=
  if !validate_address address then none
  else rpc

/-- `get_usdt_balance` from `utils/blockchain.py`, with the `balanceOf` +
`decimals` contract calls modelled by the oracle `rpc` in the same way. -/
def get_usdt_balance (address : String) (rpc : Option ℚ) : Option ℚ :=
  if !validate_address address then none
  else rpc

/-- `get_wallet_balance` from `utils/blockchain.py`: validates the address,
fetches both legs, returns `None` if both legs failed, otherwise substitutes
`Decimal("0")` for a failed leg and values the BNB leg at a hardcoded price
of 300 USD. -/
def get_wallet_balance (address : String) (bnbRpc usdtRpc : Option ℚ) :
    Option WalletBalance :=
  if !validate_address address then none
  else
    let bnb_balance := get_bnb_balance address bnbRpc
    let usdt_balance := get_usdt_balance address usdtRpc
    if bnb_balance.isNone && usdt_balance.isNone then none
    else
      let bnb := bnb_balance.getD 0
      let usdt := usdt_balance.getD 0
      let bnb_price_usd : ℚ := 300
      let bnb_value_usd := bnb * bnb_price_usd
      let total_usd := usdt + bnb_value_usd
      some { bnb := bnb, usdt := usdt, total_usd := quantize2 total_usd }

/-! ### Savings-goal button handlers (`pages/2_Savings_Goals.py`) -/

/-- The deposit button handler (lines 164–175): if `deposit_amount > 0`,
compute `new_current = current + amount` and `new_balance = balance - amount`
and apply both updates only when `new_balance >= 0`; otherwise no state
change.  Result is the pair (goal `current`, user `balance`) after the
handler. -/
def deposit_handler (current balance amount : ℚ) : ℚ × ℚ :=
  if 0 < amount then
    let new_current := current + amount
    let new_balance := balance - amount
    if 0 ≤ new_balance then (new_current, new_balance)
    else (current, balance)
  else (current, balance)

/-- The withdraw button handler (lines 188–196): if `withdraw_amount > 0`,
apply `current - amount` and `balance + amount` unconditionally.  The upper
bound `amount <= current` is not checked here; it is enforced by the widget
(see `withdrawWidgetAdmits`). -/
def withdraw_handler (current balance amount : ℚ) : ℚ × ℚ :=
  if 0 < amount then (current - amount, balance + amount)
  else (current, balance)

/-- The withdraw `st.number_input` widget (lines 178–185) is declared with
`min_value=0.0` and `max_value=float(current)`, so every amount that can
reach the withdraw handler satisfies `0 ≤ amount ≤ current`. -/
def withdrawWidgetAdmits (current amount : ℚ) : Prop :=
  0 ≤ amount ∧ amount ≤ current

/-- A stored savings-goal document as it figures in the delete handler:
its MongoDB `_id` (modelled as a natural number) and its `current` amount. -/
structure StoredGoal where
  id : ℕ
  current : ℚ
deriving DecidableEq, Repr

/-- `delete_savings_goal` from `utils/database.py`: `delete_one` removes the
first document matching the id. -/
def delete_savings_goal (goals : List StoredGoal) (goalId : ℕ) : List StoredGoal :=
  goals.eraseP (fun g => g.id == goalId)

/-- The delete button handler (lines 205–211): if the goal's `current` is
positive, refund it to the user's balance, then delete the goal document.
Result is the pair (user balance, remaining goal documents). -/
def delete_handler (balance : ℚ) (goals : List StoredGoal) (g : StoredGoal) :
    ℚ × List StoredGoal :=
  let new_balance := if 0 < g.current then balance + g.current else balance
  (new_balance, delete_savings_goal goals g.id)

/-! ### User records and PIN verification (`utils/database.py`) -/

/-- Modelled from the bcrypt library (external to this repository): hashing
is abstracted as an injective tag on the secret, sound here because the only
observation any claim makes of a stored hash is `checkpw`. -/
def hashpw (secret : String) : String :=
  secret

/-- Modelled from the bcrypt library: `bcrypt.checkpw(secret, hashed)` holds
exactly when `hashed` is the hash of `secret`. -/
def checkpw (secret hashed : String) : Bool :=
  hashed == hashpw secret

/-- A document of the `users` collection, with the fields written by
`create_user` (decimal-string balance modelled as `ℚ`, timestamps as `ℕ`). -/
structure UserRec where
  username : String
  password : String
  balance : ℚ
  pin : Option String
  pinAttempts : ℕ
  linkedWalletAddress : Option String
  createdAt : ℕ
deriving DecidableEq, Repr

/-- `create_user` from `utils/database.py`: refuse an existing (case-folded)
username, otherwise insert a fresh record with zero balance, no PIN, zero
PIN attempts and no linked wallet.  Returns the new record and the updated
collection. -/
def create_user (users : List UserRec) (username password : String)
    (createdAt : ℕ) : Option (UserRec × List UserRec) :=
  if users.any (fun u => u.username == username.toLower) then none
  else
    let user : UserRec :=
      { username := username.toLower
        password := hashpw password
        balance := 0
        pin := none
        pinAttempts := 0
        linkedWalletAddress := none
        createdAt := createdAt }
    some (user, users ++ [user])

/-- `verify_user_pin` from `utils/database.py`, as a transition on the single
user document it reads and updates: returns `False` when no PIN is set or
when `pin_attempts >= 5` (no write); on a correct PIN resets the counter to 0
and returns `True`; on a wrong PIN increments the counter and returns
`False`. -/
def verify_user_pin (u : UserRec) (pin : String) : Bool × UserRec :=
  match u.pin with
  | none => (false, u)
  | some stored =>
    if 5 ≤ u.pinAttempts then (false, u)
    else if checkpw pin stored then (true, { u with pinAttempts := 0 })
    else (false, { u with pinAttempts := u.pinAttempts + 1 })

/-- `reset_pin_attempts` from `utils/database.py`. -/
def reset_pin_attempts (u : UserRec) : UserRec :=
  { u with pinAttempts := 0 }

/-- Running a sequence of `verify_user_pin` attempts, collecting the
returned booleans and the final user document. -/
def runVerifies (u : UserRec) (pins : List String) : List Bool × UserRec :=
  match pins with
  | [] => ([], u)
  | p :: rest =>
    let r := verify_user_pin u p
    let rs := runVerifies r.2 rest
    (r.1 :: rs.1, rs.2)

/-- The database operations that write the `pin_attempts` field after user
creation. -/
inductive DbOp where
  | verify (pin : String)
  | reset
deriving DecidableEq, Repr

/-- Applying one database operation to a user document. -/
def applyOp (u : UserRec) (op : DbOp) : UserRec :=
  match op with
  | .verify pin => (verify_user_pin u pin).2
  | .reset => reset_pin_attempts u

/-! ### Public profile lookup (`utils/database.py`, `get_user_by_username`) -/

/-- The record returned by `get_user_by_username`: public fields only. -/
structure PublicProfile where
  username : String
  linkedWalletAddress : Option String
  createdAt : ℕ
deriving DecidableEq, Repr

/-- `get_user_by_username` from `utils/database.py`: `find_one` on the
case-folded username, projected to the three public fields. -/
def get_user_by_username (users : List UserRec) (username : String) :
    Option PublicProfile :=
  match users.find? (fun u => u.username == username.toLower) with
  | some u => some ⟨u.username, u.linkedWalletAddress, u.createdAt⟩
  | none => none

/-- Two user documents that agree on the public fields (and may differ in
password hash, PIN hash, PIN-failure counter and ledger balance). -/
def publicEq (u v : UserRec) : Prop :=
  u.username = v.username ∧ u.linkedWalletAddress = v.linkedWalletAddress ∧
    u.createdAt = v.createdAt

/-! ### Explorer transaction reader (`utils/blockchain.py`) -/

/-- The fixed token contract address from `utils/blockchain.py`. -/
def USDT_CONTRACT_ADDRESS : String :=
  "0x55d398326f99059ff775485246999027b3197955"

/-- A raw block-explorer transaction record, restricted to the fields
`get_all_transactions` reads: the numeric `timeStamp` (the explorer returns
decimal digit strings, modelled by the number they denote) and the
`contractAddress` field, which is the empty string on native transactions
(the code reads it with default `""`). -/
structure RawTx where
  timeStamp : ℕ
  contractAddress : String
deriving DecidableEq, Repr

/-- `get_bnb_transactions` from `utils/blockchain.py`.  `response` is the
explorer call's outcome: `none` models a network error, a JSON parse error,
a non-`"1"` status or an empty result (all of which yield `[]`), `some txs`
a successful page of records. -/
def get_bnb_transactions (address : String) (response : Option (List RawTx)) :
    List RawTx :=
  if !validate_address address then []
  else
    match response with
    | some txs => txs
    | none => []

/-- `get_token_transactions` from `utils/blockchain.py`: same outcome
modelling, with the successful page filtered to records whose
`contractAddress` equals the configured USDT contract, compared
case-insensitively. -/
def get_token_transactions (address : String) (response : Option (List RawTx)) :
    List RawTx :=
  if !validate_address address then []
  else
    match response with
    | some txs =>
        txs.filter (fun tx => tx.contractAddress.toLower == USDT_CONTRACT_ADDRESS.toLower)
    | none => []

/-- The sort order of `all_txs.sort(key=lambda tx: int(tx.get("timeStamp", "0")), reverse=True)`:
descending by timestamp. -/
def txLe (a b : RawTx) : Prop :=
  b.timeStamp ≤ a.timeStamp

instance : DecidableRel txLe :=
  fun a b => inferInstanceAs (Decidable (b.timeStamp ≤ a.timeStamp))

instance : IsTotal RawTx txLe :=
  ⟨fun a b => Nat.le_total b.timeStamp a.timeStamp⟩

instance : IsTrans RawTx txLe :=
  ⟨fun _ _ _ hab hbc => Nat.le_trans hbc hab⟩

/-- `get_all_transactions` from `utils/blockchain.py`: fetch both legs,
concatenate, sort by timestamp descending (Python's `list.sort` is a stable
sort, so it agrees with insertion sort), truncate to `limit`. -/
def get_all_transactions (address : String)
    (nativeResp tokenResp : Option (List RawTx)) (limit : ℕ) : List RawTx :=
  if !validate_address address then []
  else
    let bnb_txs := get_bnb_transactions address nativeResp
    let token_txs := get_token_transactions address tokenResp
    let all_txs := List.insertionSort txLe (bnb_txs ++ token_txs)
    all_txs.take limit

/-- C6: `validate_address(a)` returns true iff `a` matches `0x` followed by
exactly 40 hexadecimal characters and can be normalized to a checksum form by
the chain library's canonical algorithm; in particular it accepts
`0x55d398326f99059fF775485246999027B3197955` and rejects `0x123`. -/
theorem validate_address_correct :
    (∀ s : String, validate_address s = true ↔
        (specHexAddress s ∧ toChecksumAddressSucceeds s = true)) ∧
    validate_address "0x55d398326f99059fF775485246999027B3197955" = true ∧
    validate_address "0x123" = false := by
  refine ⟨?_, by decide, by decide⟩
  intro s
  unfold validate_address matchesAddressPattern
  rw [Bool.and_eq_true]
  unfold specHexAddress
  rw [hexAddressChars_iff]

/-- C2 counterexample: a goal document whose `target` field is present and
equal to 0 is not floor-guarded — `goal.get('target', '1')` only substitutes
the default when the field is absent, so `Decimal(current) / Decimal('0')`
raises `DivisionByZero` (no progress value), whereas the claim predicts a
displayed progress of `min(50 / 1 * 100, 100) = 100`. -/
theorem goalProgress_zero_target_counterexample :
    goalProgress ⟨some 50, some 0⟩ = none ∧
    goalProgressClaimed ⟨some 50, some 0⟩ = 100 ∧
    goalProgress ⟨some 50, some 0⟩ ≠ some (goalProgressClaimed ⟨some 50, some 0⟩) := by
  refine ⟨?_, ?_, ?_⟩
  · simp [goalProgress]
  · norm_num [goalProgressClaimed]
  · simp [goalProgress]

/-- C2 (amended): the displayed progress equals
`min(current / target * 100, 100)` where `target` defaults to 1 only when the
target field is absent; a goal whose stored target is exactly 0 produces no
progress value (the division raises) instead of defaulting to 1.  The spec's
examples hold: `current=50, target=200` gives 25 and `current=250, target=200`
is capped at 100. -/
theorem goalProgress_amended :
    (∀ g : GoalDoc, g.target.getD 1 ≠ 0 →
        goalProgress g = some (goalProgressClaimed g)) ∧
    (∀ g : GoalDoc, g.target.getD 1 = 0 → goalProgress g = none) ∧
    goalProgress ⟨some 50, some 200⟩ = some 25 ∧
    goalProgress ⟨some 250, some 200⟩ = some 100 := by
  refine ⟨?_, ?_, ?_, ?_⟩
  · intro g h
    simp only [goalProgress, goalProgressClaimed, if_neg h]
  · intro g h
    simp only [goalProgress, if_pos h]
  · norm_num [goalProgress]
  · norm_num [goalProgress]

/-- Witness for C2's amended theorem at a concrete goal document. -/
theorem goalProgress_amended_witness :
    goalProgress ⟨some 50, some 200⟩ = some (goalProgressClaimed ⟨some 50, some 200⟩) :=
  goalProgress_amended.1 ⟨some 50, some 200⟩ (by norm_num)

/-- C1: for every address that passes validation, if exactly one of the two
balance legs fails then `get_wallet_balance` returns a record in which the
failed leg is 0 and the other leg is the fetched value; it returns `None`
exactly when the address fails validation or both legs fail. -/
theorem get_wallet_balance_partial_failure (address : String)
    (bnbRpc usdtRpc : Option ℚ) :
    (get_wallet_balance address bnbRpc usdtRpc = none ↔
      (validate_address address = false ∨ (bnbRpc = none ∧ usdtRpc = none))) ∧
    (validate_address address = true →
      (∀ v : ℚ, bnbRpc = some v → usdtRpc = none →
        get_wallet_balance address bnbRpc usdtRpc =
          some { bnb := v, usdt := 0, total_usd := quantize2 (v * 300) }) ∧
      (∀ v : ℚ, bnbRpc = none → usdtRpc = some v →
        get_wallet_balance address bnbRpc usdtRpc =
          some { bnb := 0, usdt := v, total_usd := quantize2 v })) := by
  cases hv : validate_address address with
  | false =>
    refine ⟨by simp [get_wallet_balance, hv], ?_⟩
    intro h
    exact absurd h (by simp)
  | true =>
    cases bnbRpc with
    | none =>
      cases usdtRpc with
      | none =>
        simp [get_wallet_balance, get_bnb_balance, get_usdt_balance, hv]
      | some w =>
        refine ⟨by simp [get_wallet_balance, get_bnb_balance, get_usdt_balance, hv], ?_⟩
        intro _
        refine ⟨by intro v hv'; exact absurd hv' (by simp), ?_⟩
        intro v _ hw
        obtain rfl : w = v := by simpa using hw
        simp [get_wallet_balance, get_bnb_balance, get_usdt_balance, hv]
    | some b =>
      cases usdtRpc with
      | none =>
        refine ⟨by simp [get_wallet_balance, get_bnb_balance, get_usdt_balance, hv], ?_⟩
        intro _
        refine ⟨?_, by intro v hv'; exact absurd hv' (by simp)⟩
        intro v hb _
        obtain rfl : b = v := by simpa using hb
        simp [get_wallet_balance, get_bnb_balance, get_usdt_balance, hv]
      | some w =>
        refine ⟨by simp [get_wallet_balance, get_bnb_balance, get_usdt_balance, hv], ?_⟩
        intro _
        exact ⟨by rintro v hb h; exact absurd h (by simp),
               by rintro v h hw; exact absurd h (by simp)⟩

/-- Witness for C1's theorem: the valid USDT contract address with a failed
BNB leg and a token leg that fetched 7 USDT. -/
theorem get_wallet_balance_partial_failure_witness :
    get_wallet_balance "0x55d398326f99059fF775485246999027B3197955" none (some 7) =
      some { bnb := 0, usdt := 7, total_usd := quantize2 7 } :=
  ((get_wallet_balance_partial_failure _ none (some 7)).2 (by decide)).2 7 rfl rfl

/-- C4: depositing into a goal requires `amount > 0` and
`amount <= user.balance`; when allowed it adds the amount to the goal and
subtracts it from the balance (500 balance, 0 current, deposit 200 gives
300 balance and 200 current), and a deposit exceeding the balance is
rejected with no state change. -/
theorem deposit_handler_correct :
    (∀ current balance amount : ℚ,
      ((0 < amount ∧ amount ≤ balance) →
        deposit_handler current balance amount = (current + amount, balance - amount)) ∧
      (¬(0 < amount ∧ amount ≤ balance) →
        deposit_handler current balance amount = (current, balance))) ∧
    deposit_handler 0 500 200 = (200, 300) ∧
    deposit_handler 0 500 600 = (0, 500) := by
  refine ⟨?_, by norm_num [deposit_handler], by norm_num [deposit_handler]⟩
  intro current balance amount
  constructor
  · rintro ⟨h1, h2⟩
    dsimp only [deposit_handler]
    rw [if_pos h1, if_pos (by linarith : (0 : ℚ) ≤ balance - amount)]
  · intro h
    by_cases h1 : 0 < amount
    · have h2 : ¬ amount ≤ balance := fun hle => h ⟨h1, hle⟩
      dsimp only [deposit_handler]
      rw [if_pos h1, if_neg (by intro hb; exact h2 (by linarith))]
    · dsimp only [deposit_handler]
      rw [if_neg h1]

/-- Witness for C4's theorem: the spec's example deposit of 200 against a
balance of 500. -/
theorem deposit_handler_correct_witness :
    deposit_handler 0 500 200 = (0 + 200, 500 - 200) :=
  (deposit_handler_correct.1 0 500 200).1 ⟨by norm_num, by norm_num⟩

/-- C3: withdrawing from a goal, through the widget that bounds the amount
by the goal's current value, requires `amount > 0` and
`amount <= goal.current`; when the requirement holds the amount moves from
the goal to the balance, and when it fails neither changes. -/
theorem withdraw_handler_correct :
    ∀ current balance amount : ℚ, withdrawWidgetAdmits current amount →
      ((0 < amount ∧ amount ≤ current) →
        withdraw_handler current balance amount = (current - amount, balance + amount)) ∧
      (¬(0 < amount ∧ amount ≤ current) →
        withdraw_handler current balance amount = (current, balance)) := by
  rintro current balance amount ⟨h0, hc⟩
  constructor
  · rintro ⟨h1, _⟩
    dsimp only [withdraw_handler]
    rw [if_pos h1]
  · intro h
    have h1 : ¬ 0 < amount := fun h1 => h ⟨h1, hc⟩
    dsimp only [withdraw_handler]
    rw [if_neg h1]

/-- Witness for C3's theorem: withdrawing 30 from a goal holding 100 with a
user balance of 50. -/
theorem withdraw_handler_correct_witness :
    withdraw_handler 100 50 30 = (100 - 30, 50 + 30) :=
  (withdraw_handler_correct 100 50 30 ⟨by norm_num, by norm_num⟩).1
    ⟨by norm_num, by norm_num⟩

/-- C8: deleting a goal with positive `current` refunds it to the user's
balance and removes the goal document (under the store's unique-id
discipline no document with that id remains); deleting a goal with
`current = 0` leaves the balance unchanged.  The spec's example: current 75
and balance 100 give balance 175 with the goal gone. -/
theorem delete_handler_refund :
    (∀ (balance : ℚ) (goals : List StoredGoal) (g : StoredGoal),
      (0 < g.current → (delete_handler balance goals g).1 = balance + g.current) ∧
      (g.current = 0 → (delete_handler balance goals g).1 = balance) ∧
      ((goals.map StoredGoal.id).Nodup → g ∈ goals →
        g.id ∉ (delete_handler balance goals g).2.map StoredGoal.id)) ∧
    delete_handler 100 [⟨1, 75⟩] ⟨1, 75⟩ = (175, []) := by
  constructor
  · intro balance goals g
    refine ⟨?_, ?_, ?_⟩
    · intro h
      dsimp only [delete_handler]
      rw [if_pos h]
    · intro h
      dsimp only [delete_handler]
      rw [if_neg (by rw [h]; exact lt_irrefl 0)]
    · intro hnd hg hmem
      dsimp only [delete_handler, delete_savings_goal] at hmem
      obtain ⟨a, l₁, l₂, hl₁, hpa, hl, he⟩ :=
        List.exists_of_eraseP (p := fun g2 => g2.id == g.id) hg (by simp)
      rw [he, List.map_append, List.mem_append] at hmem
      have haid : a.id = g.id := by simpa using hpa
      cases hmem with
      | inl h1 =>
        obtain ⟨b, hb, hbid⟩ := List.mem_map.1 h1
        exact hl₁ b hb (by simpa using hbid)
      | inr h2 =>
        rw [hl, List.map_append, List.nodup_append] at hnd
        obtain ⟨-, hnd2, -⟩ := hnd
        rw [List.map_cons, List.nodup_cons] at hnd2
        exact hnd2.1 (haid ▸ h2)
  · dsimp only [delete_handler, delete_savings_goal]
    rw [if_pos (by norm_num : (0 : ℚ) < (75 : ℚ)),
      List.eraseP_cons_of_pos (by simp)]
    norm_num

/-- Witness for C8's theorem: the deleted goal's id is gone from the store. -/
theorem delete_handler_refund_witness :
    (1 : ℕ) ∉ (delete_handler 100 [⟨1, 75⟩] ⟨1, 75⟩).2.map StoredGoal.id :=
  (delete_handler_refund.1 100 [⟨1, 75⟩] ⟨1, 75⟩).2.2 (by simp) (by simp)

/-- A user whose failure counter has reached 5 is rejected with no write,
whatever the submitted PIN and whether or not a PIN is set. -/
theorem verify_user_pin_locked (u : UserRec) (p : String)
    (h : 5 ≤ u.pinAttempts) : verify_user_pin u p = (false, u) := by
  cases hp : u.pin with
  | none => simp [verify_user_pin, hp]
  | some stored =>
    simp only [verify_user_pin, hp]
    rw [if_pos h]

/-- C5: once the failure counter reaches 5, every later verification in any
sequence of attempts is rejected and leaves the record unchanged until an
explicit reset; below 5, a correct PIN succeeds and resets the counter to 0
and a wrong PIN increments it by 1; after an explicit reset a correct PIN
succeeds again. -/
theorem verify_user_pin_lockout :
    (∀ (u : UserRec) (pins : List String), 5 ≤ u.pinAttempts →
      (∀ b ∈ (runVerifies u pins).1, b = false) ∧ (runVerifies u pins).2 = u) ∧
    (∀ (u : UserRec) (stored p : String), u.pin = some stored →
      u.pinAttempts < 5 → checkpw p stored = true →
      verify_user_pin u p = (true, { u with pinAttempts := 0 })) ∧
    (∀ (u : UserRec) (stored p : String), u.pin = some stored →
      u.pinAttempts < 5 → checkpw p stored = false →
      verify_user_pin u p = (false, { u with pinAttempts := u.pinAttempts + 1 })) ∧
    (∀ (u : UserRec) (stored p : String), u.pin = some stored →
      checkpw p stored = true →
      (verify_user_pin (reset_pin_attempts u) p).1 = true) := by
  refine ⟨?_, ?_, ?_, ?_⟩
  · intro u pins h
    induction pins with
    | nil => exact ⟨by simp [runVerifies], rfl⟩
    | cons p rest ih =>
      obtain ⟨ih1, ih2⟩ := ih
      dsimp only [runVerifies]
      rw [verify_user_pin_locked u p h]
      refine ⟨?_, ih2⟩
      intro b hb
      rcases List.mem_cons.1 hb with rfl | hb2
      · rfl
      · exact ih1 b hb2
  · intro u stored p hp hlt hc
    simp only [verify_user_pin, hp]
    rw [if_neg (not_le.2 hlt), if_pos hc]
  · intro u stored p hp hlt hc
    simp only [verify_user_pin, hp]
    rw [if_neg (not_le.2 hlt), if_neg (by simp [hc])]
  · intro u stored p hp hc
    simp only [verify_user_pin, reset_pin_attempts, hp]
    rw [if_neg (by norm_num : ¬ (5 : ℕ) ≤ 0), if_pos hc]

/-- Witness for C5's theorem: after an explicit reset of a locked-out user,
the correct PIN verifies again. -/
theorem verify_user_pin_lockout_witness :
    (verify_user_pin
      (reset_pin_attempts
        ⟨"alice", hashpw "pw", 0, some (hashpw "123456"), 5, none, 0⟩)
      "123456").1 = true :=
  verify_user_pin_lockout.2.2.2 _ (hashpw "123456") "123456" rfl (by decide)

/-- One database write preserves the upper bound 5 on the failure counter. -/
theorem applyOp_pinAttempts_le (u : UserRec) (op : DbOp)
    (h : u.pinAttempts ≤ 5) : (applyOp u op).pinAttempts ≤ 5 := by
  cases op with
  | reset => exact Nat.le_of_lt (by simp [applyOp, reset_pin_attempts])
  | verify p =>
    dsimp only [applyOp]
    cases hp : u.pin with
    | none =>
      simp only [verify_user_pin, hp]
      exact h
    | some stored =>
      simp only [verify_user_pin, hp]
      by_cases h5 : 5 ≤ u.pinAttempts
      · rw [if_pos h5]
        exact h
      · rw [if_neg h5]
        by_cases hc : checkpw p stored = true
        · rw [if_pos hc]
          exact Nat.zero_le 5
        · rw [if_neg hc]
          dsimp only
          omega

/-- C10: the PIN-failure counter stays between 0 and 5: a locked user's
verification returns `False` with no write, a failed attempt below 5
increments the counter by exactly 1, and the only other writes (successful
verification, explicit reset, user creation) set it to 0; consequently any
sequence of operations keeps the counter at most 5. -/
theorem pin_attempts_range :
    (∀ (u : UserRec) (p : String), 5 ≤ u.pinAttempts →
      verify_user_pin u p = (false, u)) ∧
    (∀ (u : UserRec) (stored p : String), u.pin = some stored →
      u.pinAttempts < 5 → checkpw p stored = false →
      (verify_user_pin u p).2.pinAttempts = u.pinAttempts + 1) ∧
    (∀ (u : UserRec) (stored p : String), u.pin = some stored →
      u.pinAttempts < 5 → checkpw p stored = true →
      (verify_user_pin u p).2.pinAttempts = 0) ∧
    (∀ u : UserRec, (reset_pin_attempts u).pinAttempts = 0) ∧
    (∀ (users : List UserRec) (username password : String) (createdAt : ℕ)
      (r : UserRec × List UserRec),
      create_user users username password createdAt = some r →
      r.1.pinAttempts = 0) ∧
    (∀ (u : UserRec) (ops : List DbOp), u.pinAttempts ≤ 5 →
      (ops.foldl applyOp u).pinAttempts ≤ 5) := by
  refine ⟨verify_user_pin_locked, ?_, ?_, fun u => rfl, ?_, ?_⟩
  · intro u stored p hp hlt hc
    simp only [verify_user_pin, hp]
    rw [if_neg (not_le.2 hlt), if_neg (by simp [hc])]
  · intro u stored p hp hlt hc
    simp only [verify_user_pin, hp]
    rw [if_neg (not_le.2 hlt), if_pos hc]
  · intro users username password createdAt r h
    unfold create_user at h
    by_cases hx : users.any (fun u => u.username == username.toLower)
    · rw [if_pos hx] at h
      cases h
    · rw [if_neg hx] at h
      injection h with h'
      rw [← h']
  · intro u ops h
    induction ops generalizing u with
    | nil => exact h
    | cons op rest ih => exact ih _ (applyOp_pinAttempts_le u op h)

/-- Witness for C10's theorem: a short operation sequence from a mid-range
counter stays within the bound. -/
theorem pin_attempts_range_witness :
    (([DbOp.reset, DbOp.verify "000000"].foldl applyOp
      ⟨"bob", hashpw "pw", 0, some (hashpw "123456"), 3, none, 0⟩).pinAttempts ≤ 5) :=
  pin_attempts_range.2.2.2.2.2 _ [DbOp.reset, DbOp.verify "000000"] (by norm_num)

/-- C9: the public profile lookup returns only the public fields username,
linked wallet address and creation timestamp, and its result is independent
of password hash, PIN hash, PIN-failure counter and ledger balance: two
stores whose records agree on the public fields give identical lookups. -/
theorem get_user_by_username_public_only :
    ∀ (us vs : List UserRec) (q : String), List.Forall₂ publicEq us vs →
      get_user_by_username us q = get_user_by_username vs q := by
  intro us vs q h
  induction h with
  | nil => rfl
  | @cons a b l₁ l₂ hab htail ih =>
    obtain ⟨hu, hw, hc⟩ := hab
    unfold get_user_by_username at ih ⊢
    by_cases hpb : (b.username == q.toLower) = true
    · rw [List.find?_cons_of_pos (p := fun u : UserRec => u.username == q.toLower) _
          (by show (a.username == q.toLower) = true; rw [hu]; exact hpb),
        List.find?_cons_of_pos (p := fun u : UserRec => u.username == q.toLower) _
          (by show (b.username == q.toLower) = true; exact hpb)]
      dsimp only
      rw [hu, hw, hc]
    · rw [List.find?_cons_of_neg (p := fun u : UserRec => u.username == q.toLower) _
          (by show ¬(a.username == q.toLower) = true; rw [hu]; exact hpb),
        List.find?_cons_of_neg (p := fun u : UserRec => u.username == q.toLower) _
          (by show ¬(b.username == q.toLower) = true; exact hpb)]
      exact ih

/-- Witness for C9's theorem: two one-record stores differing only in
password hash, PIN hash, failure counter and balance give the same lookup. -/
theorem get_user_by_username_public_only_witness :
    get_user_by_username [⟨"alice", hashpw "pw1", 10, some (hashpw "111111"), 2, some "0xabc", 7⟩] "Alice" =
      get_user_by_username [⟨"alice", hashpw "pw2", 99, none, 0, some "0xabc", 7⟩] "Alice" :=
  get_user_by_username_public_only _ _ "Alice"
    (List.Forall₂.cons ⟨rfl, rfl, rfl⟩ List.Forall₂.nil)

/-- C7: for a valid address, `get_all_transactions` returns the two legs
merged — token results filtered to the configured USDT contract compared
case-insensitively — sorted by timestamp descending and truncated to at most
`limit` records; a failed leg contributes an empty list and the merge
proceeds with the other. -/
theorem get_all_transactions_correct (address : String)
    (nativeResp tokenResp : Option (List RawTx)) (limit : ℕ)
    (hv : validate_address address = true) :
    List.Sorted txLe (get_all_transactions address nativeResp tokenResp limit) ∧
    (get_all_transactions address nativeResp tokenResp limit).length ≤ limit ∧
    (∀ tx ∈ get_all_transactions address nativeResp tokenResp limit,
      tx ∈ get_bnb_transactions address nativeResp ∨
        tx ∈ get_token_transactions address tokenResp) ∧
    ((get_bnb_transactions address nativeResp ++
        get_token_transactions address tokenResp).length ≤ limit →
      (get_all_transactions address nativeResp tokenResp limit).Perm
        (get_bnb_transactions address nativeResp ++
          get_token_transactions address tokenResp)) ∧
    (∀ tx ∈ get_token_transactions address tokenResp,
      ∃ l, tokenResp = some l ∧ tx ∈ l ∧
        tx.contractAddress.toLower = USDT_CONTRACT_ADDRESS.toLower) ∧
    get_bnb_transactions address none = [] ∧
    get_token_transactions address none = [] := by
  have hmain : get_all_transactions address nativeResp tokenResp limit =
      (List.insertionSort txLe
        (get_bnb_transactions address nativeResp ++
          get_token_transactions address tokenResp)).take limit := by
    unfold get_all_transactions
    rw [hv]
    rfl
  refine ⟨?_, ?_, ?_, ?_, ?_, ?_, ?_⟩
  · rw [hmain]
    exact (List.sorted_insertionSort txLe _).sublist (List.take_sublist _ _)
  · rw [hmain, List.length_take]
    exact min_le_left _ _
  · intro tx htx
    rw [hmain] at htx
    have h1 : tx ∈ List.insertionSort txLe
        (get_bnb_transactions address nativeResp ++
          get_token_transactions address tokenResp) :=
      (List.take_sublist _ _).mem htx
    have h2 := (List.perm_insertionSort txLe _).mem_iff.1 h1
    exact List.mem_append.1 h2
  · intro hlen
    rw [hmain, List.take_of_length_le (by rw [List.length_insertionSort]; exact hlen)]
    exact List.perm_insertionSort txLe _
  · intro tx htx
    unfold get_token_transactions at htx
    rw [hv] at htx
    cases tokenResp with
    | none => exact absurd htx (by simp)
    | some l =>
      have h' : tx ∈ l ∧ tx.contractAddress.toLower = USDT_CONTRACT_ADDRESS.toLower := by
        simpa using htx
      exact ⟨l, rfl, h'.1, h'.2⟩
  · unfold get_bnb_transactions
    rw [hv]
    rfl
  · unfold get_token_transactions
    rw [hv]
    rfl

/-- Witness for C7's theorem: sortedness of the merged history of the valid
USDT contract address with one native record and one token page containing a
matching record. -/
theorem get_all_transactions_correct_witness :
    List.Sorted txLe
      (get_all_transactions "0x55d398326f99059fF775485246999027B3197955"
        (some [⟨100, ""⟩])
        (some [⟨200, "0x55D398326F99059FF775485246999027B3197955"⟩]) 2) :=
  (get_all_transactions_correct _ _ _ 2 (by decide)).1

end USDTVault
